import Mathlib

/-!
Shallow embedding of `src/main.py`, a FastAPI + SQLAlchemy CRUD service for
racing drivers and their laps, backed by a SQLite store.

The store is modelled as two insertion-ordered lists of rows (`drivers`,
`laps`) plus a freshness counter.  `str(uuid.uuid4())` is modelled as an
injective supply `mkId` of non-empty opaque strings indexed by that counter:
the property of uuid4 the code relies on is exactly that each generated
string is fresh.  Python floats carry no arithmetic here (lap times are only
stored, compared and returned), so `lap_time` is modelled as `ℚ`.

Each endpoint of `main.py` becomes a function from the store (and the decoded
request) to the response paired with the successor store; an
`HTTPException` raise becomes an `ApiError` result with the store returned
unchanged, mirroring that the raise aborts the handler before any mutation.
`db.query(...).filter(...).first()` becomes `List.find?`, SQLAlchemy's
first-match row mutation and deletion become first-match list surgery, and
the `cascade="all, delete-orphan"` relationship on `DriverDB.laps` becomes
the filter removing every lap owned by the deleted driver.
-/

/-- A row of the `drivers` table (`DriverDB`): primary key `id`, `name`. -/
structure DriverRec where
  id : String
  name : String
deriving DecidableEq, Repr

/-- A row of the `laps` table (`LapDB`): primary key `id`, `lap_time`,
`track`, foreign key `driver_id`. -/
structure LapRec where
  id : String
  lap_time : ℚ
  track : String
  driver_id : String
deriving DecidableEq, Repr

/-- The SQLite store: the two tables in row (insertion) order, plus the
freshness counter feeding `mkId` (the model of the uuid4 supply). -/
structure DB where
  drivers : List DriverRec
  laps : List LapRec
  nextId : Nat
deriving DecidableEq, Repr

/-- The empty store. -/
def emptyDB : DB := ⟨[], [], 0⟩

/-- Model of `str(uuid.uuid4())`: the `n`-th generated identifier.  The two
facts the code gets from uuid4 are captured: every generated string is
non-empty, and distinct draws are distinct strings (`mkId` is injective). -/
def mkId (n : Nat) : String := String.mk (List.replicate (n + 1) 'u')

/-- Serialized form of a lap (the `Lap` pydantic response model). -/
structure LapOut where
  id : String
  lap_time : ℚ
  track : String
deriving DecidableEq, Repr

/-- Serialized form of a driver (the `Driver` pydantic response model),
laps included via the ORM relationship. -/
structure DriverOut where
  id : String
  name : String
  laps : List LapOut
deriving DecidableEq, Repr

/-- The two 404 bodies the service raises: `"Driver not found"` and
`"Lap not found"`. -/
inductive ApiError where
  | driverNotFound
  | lapNotFound
deriving DecidableEq, Repr

deriving instance DecidableEq for Except

/-- `db.query(DriverDB).filter(DriverDB.id == driver_id).first()`. -/
def findDriver (db : DB) (driver_id : String) : Option DriverRec :=
  db.drivers.find? (fun d => d.id == driver_id)

/-- `db.query(LapDB).filter(LapDB.id == lap_id, LapDB.driver_id == driver_id).first()`. -/
def findLap (db : DB) (lap_id driver_id : String) : Option LapRec :=
  db.laps.find? (fun l => l.id == lap_id && l.driver_id == driver_id)

/-- Serialization of a lap row through the `Lap` response model. -/
def lapOut (l : LapRec) : LapOut := ⟨l.id, l.lap_time, l.track⟩

/-- Serialization of a driver row through the `Driver` response model: the
`laps` relationship loads, in row order, every lap whose `driver_id` is the
driver's primary key. -/
def driverOut (db : DB) (d : DriverRec) : DriverOut :=
  ⟨d.id, d.name, (db.laps.filter (fun l => l.driver_id == d.id)).map lapOut⟩

/-- `POST /drivers` (`create_driver`): insert a driver with a fresh id and
the supplied name; always succeeds and returns the refreshed row. -/
def create_driver (db : DB) (name : String) : DriverOut × DB :=
  let d : DriverRec := ⟨mkId db.nextId, name⟩
  let db2 : DB := ⟨db.drivers ++ [d], db.laps, db.nextId + 1⟩
  (driverOut db2 d, db2)

/-- `GET /drivers` (`get_drivers`): all drivers with their laps. -/
def get_drivers (db : DB) : List DriverOut :=
  db.drivers.map (driverOut db)

/-- `GET /drivers/{driver_id}` (`get_driver`). -/
def get_driver (db : DB) (driver_id : String) : Except ApiError DriverOut :=
  match findDriver db driver_id with
  | none => .error .driverNotFound
  | some d => .ok (driverOut db d)

/-- Overwrite the `name` of the first driver row matching `driver_id`
(the row mutation `driver.name = driver_update.name` on the row that
`.first()` returned). -/
def setDriverName : List DriverRec → String → String → List DriverRec
  | [], _, _ => []
  | d :: ds, driver_id, nm =>
    if d.id == driver_id then ⟨d.id, nm⟩ :: ds
    else d :: setDriverName ds driver_id nm

/-- `PUT /drivers/{driver_id}` (`update_driver`): 404 if absent, else
overwrite the name and return the refreshed row. -/
def update_driver (db : DB) (driver_id nm : String) :
    Except ApiError DriverOut × DB :=
  match findDriver db driver_id with
  | none => (.error .driverNotFound, db)
  | some d =>
    let db2 : DB := ⟨setDriverName db.drivers driver_id nm, db.laps, db.nextId⟩
    (.ok (driverOut db2 ⟨d.id, nm⟩), db2)

/-- Remove the first driver row matching `driver_id` (`db.delete(driver)`
on the row `.first()` returned). -/
def eraseDriverIn : List DriverRec → String → List DriverRec
  | [], _ => []
  | d :: ds, driver_id =>
    if d.id == driver_id then ds else d :: eraseDriverIn ds driver_id

/-- `DELETE /drivers/{driver_id}` (`delete_driver`): 404 if absent, else
delete the row; the `cascade="all, delete-orphan"` relationship deletes
every lap whose `driver_id` is the deleted driver's id. -/
def delete_driver (db : DB) (driver_id : String) :
    Except ApiError String × DB :=
  match findDriver db driver_id with
  | none => (.error .driverNotFound, db)
  | some d =>
    (.ok "Driver deleted",
      ⟨eraseDriverIn db.drivers driver_id,
       db.laps.filter (fun l => !(l.driver_id == d.id)), db.nextId⟩)

/-- `POST /drivers/{driver_id}/laps` (`create_lap`): 404 if the driver is
absent, else insert a lap with a fresh id, the supplied fields and
`driver_id` set to the path parameter. -/
def create_lap (db : DB) (driver_id : String) (lap_time : ℚ) (track : String) :
    Except ApiError LapOut × DB :=
  match findDriver db driver_id with
  | none => (.error .driverNotFound, db)
  | some _ =>
    let l : LapRec := ⟨mkId db.nextId, lap_time, track, driver_id⟩
    (.ok (lapOut l), ⟨db.drivers, db.laps ++ [l], db.nextId + 1⟩)

/-- `GET /drivers/{driver_id}/laps` (`get_laps`): 404 if the driver is
absent, else the driver's laps via the relationship, in row order. -/
def get_laps (db : DB) (driver_id : String) : Except ApiError (List LapOut) :=
  match findDriver db driver_id with
  | none => .error .driverNotFound
  | some d => .ok ((db.laps.filter (fun l => l.driver_id == d.id)).map lapOut)

/-- `GET /drivers/{driver_id}/laps/{lap_id}` (`get_lap`): the single
owner-scoped lookup; 404 `Lap not found` unless a lap matches both the
lap id and the claimed driver id. -/
def get_lap (db : DB) (driver_id lap_id : String) : Except ApiError LapOut :=
  match findLap db lap_id driver_id with
  | none => .error .lapNotFound
  | some l => .ok (lapOut l)

/-- Overwrite `lap_time`/`track` of the first lap row matching both keys
(the row mutation in `update_lap` on the row `.first()` returned). -/
def updateLapIn : List LapRec → String → String → ℚ → String → List LapRec
  | [], _, _, _, _ => []
  | l :: ls, lap_id, driver_id, t, tr =>
    if l.id == lap_id && l.driver_id == driver_id then
      ⟨l.id, t, tr, l.driver_id⟩ :: ls
    else l :: updateLapIn ls lap_id driver_id t tr

/-- `PUT /drivers/{driver_id}/laps/{lap_id}` (`update_lap`): owner-scoped
lookup, 404 `Lap not found` on mismatch, else overwrite the two fields and
return the refreshed row. -/
def update_lap (db : DB) (driver_id lap_id : String) (t : ℚ) (tr : String) :
    Except ApiError LapOut × DB :=
  match findLap db lap_id driver_id with
  | none => (.error .lapNotFound, db)
  | some l =>
    (.ok (lapOut ⟨l.id, t, tr, l.driver_id⟩),
     ⟨db.drivers, updateLapIn db.laps lap_id driver_id t tr, db.nextId⟩)

/-- Remove the first lap row matching both keys (`db.delete(lap)` on the
row `.first()` returned). -/
def eraseLapIn : List LapRec → String → String → List LapRec
  | [], _, _ => []
  | l :: ls, lap_id, driver_id =>
    if l.id == lap_id && l.driver_id == driver_id then ls
    else l :: eraseLapIn ls lap_id driver_id

/-- `DELETE /drivers/{driver_id}/laps/{lap_id}` (`delete_lap`): owner-scoped
lookup, 404 `Lap not found` on mismatch, else delete the row. -/
def delete_lap (db : DB) (driver_id lap_id : String) :
    Except ApiError String × DB :=
  match findLap db lap_id driver_id with
  | none => (.error .lapNotFound, db)
  | some _ =>
    (.ok "Lap deleted", ⟨db.drivers, eraseLapIn db.laps lap_id driver_id, db.nextId⟩)

/-- One decoded request to the service: the ten public endpoints. -/
inductive Op where
  | createDriver (name : String)
  | listDrivers
  | getDriver (driver_id : String)
  | updateDriver (driver_id nm : String)
  | deleteDriver (driver_id : String)
  | createLap (driver_id : String) (lap_time : ℚ) (track : String)
  | listLaps (driver_id : String)
  | getLap (driver_id lap_id : String)
  | updateLap (driver_id lap_id : String) (lap_time : ℚ) (track : String)
  | deleteLap (driver_id lap_id : String)
deriving DecidableEq, Repr

/-- The store after handling one request (reads leave it unchanged). -/
def stepOp (db : DB) : Op → DB
  | .createDriver nm => (create_driver db nm).2
  | .listDrivers => db
  | .getDriver _ => db
  | .updateDriver did nm => (update_driver db did nm).2
  | .deleteDriver did => (delete_driver db did).2
  | .createLap did t tr => (create_lap db did t tr).2
  | .listLaps _ => db
  | .getLap _ _ => db
  | .updateLap did lid t tr => (update_lap db did lid t tr).2
  | .deleteLap did lid => (delete_lap db did lid).2

/-- The store after handling a sequence of requests. -/
def run (db : DB) : List Op → DB
  | [] => db
  | op :: ops => run (stepOp db op) ops

/-- The states the service can be in, starting from the empty store. -/
inductive Reachable : DB → Prop
  | init : Reachable emptyDB
  | step (db : DB) (op : Op) : Reachable db → Reachable (stepOp db op)

/-- Every id (driver or lap primary key) present in the store. -/
def allIds (db : DB) : List String :=
  db.drivers.map (fun d => d.id) ++ db.laps.map (fun l => l.id)

/-- The identifiers a single request causes the service to issue: one fresh
id for `create_driver` and for a successful `create_lap`, none otherwise. -/
def issuedNow (db : DB) : Op → List String
  | .createDriver _ => [mkId db.nextId]
  | .createLap did _ _ =>
    match findDriver db did with
    | some _ => [mkId db.nextId]
    | none => []
  | _ => []

/-- The identifiers issued (returned by successful creates) while handling
a sequence of requests from `db`. -/
def issued (db : DB) : List Op → List String
  | [] => []
  | op :: ops => issuedNow db op ++ issued (stepOp db op) ops

/-- Whether a request's supplied `lap_time`, if any, is positive.  Requests
that carry no `lap_time` satisfy it vacuously. -/
def opPosTime : Op → Bool
  | .createLap _ t _ => decide (0 < t)
  | .updateLap _ _ t _ => decide (0 < t)
  | _ => true

/-- Well-formedness of a store: every primary key was drawn from the id
supply below the current counter, keys are globally distinct, and every
lap's `driver_id` resolves to a stored driver. -/
structure DBInv (db : DB) : Prop where
  driverIdBound : ∀ d ∈ db.drivers, ∃ k, k < db.nextId ∧ d.id = mkId k
  lapIdBound : ∀ l ∈ db.laps, ∃ k, k < db.nextId ∧ l.id = mkId k
  lapOwner : ∀ l ∈ db.laps, ∃ d ∈ db.drivers, d.id = l.driver_id
  idsNodup : (allIds db).Nodup

/-- A small concrete store used to instantiate universally quantified
results: two drivers, one lap owned by the first. -/
def sampleDB : DB := ⟨[⟨"d1", "A"⟩, ⟨"d2", "B"⟩], [⟨"l1", 5, "Spa", "d1"⟩], 0⟩

example : (create_driver emptyDB "Max").1 = ⟨mkId 0, "Max", []⟩ := by decide
example :
    get_driver (run emptyDB [Op.createDriver "Max"]) (mkId 0)
      = .ok ⟨mkId 0, "Max", []⟩ := by decide
example :
    get_lap (run emptyDB [Op.createDriver "A", Op.createLap (mkId 0) 5 "Spa"])
      (mkId 0) (mkId 1) = .ok ⟨mkId 1, 5, "Spa"⟩ := by decide
example :
    get_lap (run emptyDB
        [Op.createDriver "A", Op.createDriver "B", Op.createLap (mkId 0) 5 "Spa"])
      (mkId 1) (mkId 2) = .error .lapNotFound := by decide

/-! ### Basic facts about the id supply and the two lookups -/

theorem mkId_inj {m n : Nat} (h : mkId m = mkId n) : m = n := by
  have h2 : List.replicate (m + 1) 'u' = List.replicate (n + 1) 'u' :=
    congrArg String.data h
  simpa using congrArg List.length h2

theorem mkId_ne_empty (n : Nat) : mkId n ≠ "" := by
  intro h
  have h2 : List.replicate (n + 1) 'u' = [] := congrArg String.data h
  simpa using congrArg List.length h2

theorem findDriver_some {db : DB} {x : String} {d : DriverRec}
    (h : findDriver db x = some d) : d ∈ db.drivers ∧ d.id = x := by
  refine ⟨List.mem_of_find?_eq_some h, ?_⟩
  have hp := List.find?_some h
  simpa using hp

theorem findDriver_none {db : DB} {x : String} :
    findDriver db x = none ↔ ∀ d ∈ db.drivers, d.id ≠ x := by
  simp [findDriver, List.find?_eq_none]

theorem findLap_some {db : DB} {lid did : String} {l : LapRec}
    (h : findLap db lid did = some l) :
    l ∈ db.laps ∧ l.id = lid ∧ l.driver_id = did := by
  refine ⟨List.mem_of_find?_eq_some h, ?_⟩
  have hp := List.find?_some h
  simpa using hp

theorem findLap_none {db : DB} {lid did : String} :
    findLap db lid did = none ↔ ∀ l ∈ db.laps, l.id = lid → l.driver_id ≠ did := by
  simp [findLap, List.find?_eq_none]

/-! ### Facts about the first-match row surgery -/

theorem setDriverName_map_id (ds : List DriverRec) (x nm : String) :
    (setDriverName ds x nm).map (fun d => d.id) = ds.map (fun d => d.id) := by
  induction ds with
  | nil => rfl
  | cons d ds ih =>
    by_cases h : d.id = x
    · simp [setDriverName, h]
    · simp [setDriverName, h, ih]

theorem setDriverName_find?_self (ds : List DriverRec) (x nm : String) :
    (setDriverName ds x nm).find? (fun d => d.id == x)
      = (ds.find? (fun d => d.id == x)).map (fun d => (⟨d.id, nm⟩ : DriverRec)) := by
  induction ds with
  | nil => rfl
  | cons d ds ih =>
    by_cases h : d.id = x
    · simp [setDriverName, h]
    · simp [setDriverName, h, ih]

theorem setDriverName_idem (ds : List DriverRec) (x nm : String) :
    setDriverName (setDriverName ds x nm) x nm = setDriverName ds x nm := by
  induction ds with
  | nil => rfl
  | cons d ds ih =>
    by_cases h : d.id = x
    · simp [setDriverName, h]
    · simp [setDriverName, h, ih]

theorem updateLapIn_map_key (ls : List LapRec) (lid did : String) (t : ℚ) (tr : String) :
    (updateLapIn ls lid did t tr).map (fun l => (l.id, l.driver_id))
      = ls.map (fun l => (l.id, l.driver_id)) := by
  induction ls with
  | nil => rfl
  | cons l ls ih =>
    by_cases h : l.id = lid ∧ l.driver_id = did
    · simp [updateLapIn, h.1, h.2]
    · rw [Decidable.not_and_iff_or_not] at h
      rcases h with h | h
      · simp [updateLapIn, h, ih]
      · by_cases h1 : l.id = lid
        · simp [updateLapIn, h1, h, ih]
        · simp [updateLapIn, h1, ih]

theorem updateLapIn_find?_self (ls : List LapRec) (lid did : String) (t : ℚ) (tr : String) :
    (updateLapIn ls lid did t tr).find? (fun l => l.id == lid && l.driver_id == did)
      = (ls.find? (fun l => l.id == lid && l.driver_id == did)).map
          (fun l => (⟨l.id, t, tr, l.driver_id⟩ : LapRec)) := by
  induction ls with
  | nil => rfl
  | cons l ls ih =>
    by_cases h : l.id = lid ∧ l.driver_id = did
    · simp [updateLapIn, h.1, h.2]
    · rw [Decidable.not_and_iff_or_not] at h
      rcases h with h | h
      · simp [updateLapIn, h, ih]
      · by_cases h1 : l.id = lid
        · simp [updateLapIn, h1, h, ih]
        · simp [updateLapIn, h1, ih]

theorem updateLapIn_idem (ls : List LapRec) (lid did : String) (t : ℚ) (tr : String) :
    updateLapIn (updateLapIn ls lid did t tr) lid did t tr
      = updateLapIn ls lid did t tr := by
  induction ls with
  | nil => rfl
  | cons l ls ih =>
    by_cases h : l.id = lid ∧ l.driver_id = did
    · simp [updateLapIn, h.1, h.2]
    · rw [Decidable.not_and_iff_or_not] at h
      rcases h with h | h
      · simp [updateLapIn, h, ih]
      · by_cases h1 : l.id = lid
        · simp [updateLapIn, h1, h, ih]
        · simp [updateLapIn, h1, ih]

theorem updateLapIn_mem {ls : List LapRec} {lid did : String} {t : ℚ} {tr : String}
    {l2 : LapRec} (h : l2 ∈ updateLapIn ls lid did t tr) :
    ∃ l ∈ ls, l2.id = l.id ∧ l2.driver_id = l.driver_id := by
  have hmap := updateLapIn_map_key ls lid did t tr
  have hmem : (l2.id, l2.driver_id) ∈ ls.map (fun l => (l.id, l.driver_id)) := by
    rw [← hmap]
    exact List.mem_map_of_mem _ h
  rcases List.mem_map.mp hmem with ⟨l, hl, heq⟩
  exact ⟨l, hl, congrArg Prod.fst heq.symm, congrArg Prod.snd heq.symm⟩

theorem eraseDriverIn_sublist (ds : List DriverRec) (x : String) :
    List.Sublist (eraseDriverIn ds x) ds := by
  induction ds with
  | nil => simp [eraseDriverIn]
  | cons d ds ih =>
    by_cases h : d.id = x
    · simp [eraseDriverIn, h]
    · simpa [eraseDriverIn, h] using List.Sublist.cons₂ d ih

theorem mem_eraseDriverIn {ds : List DriverRec} {x : String} {d : DriverRec}
    (hmem : d ∈ ds) (hne : d.id ≠ x) : d ∈ eraseDriverIn ds x := by
  induction ds with
  | nil => simp at hmem
  | cons d0 ds ih =>
    rcases List.mem_cons.mp hmem with rfl | hmem2
    · simp [eraseDriverIn, hne]
    · by_cases h : d0.id = x
      · simpa [eraseDriverIn, h] using hmem2
      · simpa [eraseDriverIn, h] using Or.inr (ih hmem2)

theorem eraseDriverIn_find?_self {ds : List DriverRec} {x : String}
    (hnd : (ds.map (fun d => d.id)).Nodup) :
    (eraseDriverIn ds x).find? (fun d => d.id == x) = none := by
  induction ds with
  | nil => rfl
  | cons d ds ih =>
    rw [List.map_cons, List.nodup_cons] at hnd
    by_cases h : d.id = x
    · have hids : x ∉ ds.map (fun d => d.id) := h ▸ hnd.1
      rw [show eraseDriverIn (d :: ds) x = ds by simp [eraseDriverIn, h]]
      rw [List.find?_eq_none]
      intro a ha
      simp only [beq_iff_eq]
      intro hax
      apply hids
      rw [← hax]
      exact List.mem_map_of_mem (fun d => d.id) ha
    · simpa [eraseDriverIn, h] using ih hnd.2

theorem eraseLapIn_sublist (ls : List LapRec) (lid did : String) :
    List.Sublist (eraseLapIn ls lid did) ls := by
  induction ls with
  | nil => simp [eraseLapIn]
  | cons l ls ih =>
    by_cases h : l.id = lid ∧ l.driver_id = did
    · simp [eraseLapIn, h.1, h.2]
    · rw [Decidable.not_and_iff_or_not] at h
      rcases h with h | h
      · simpa [eraseLapIn, h] using List.Sublist.cons₂ l ih
      · by_cases h1 : l.id = lid
        · simpa [eraseLapIn, h1, h] using List.Sublist.cons₂ l ih
        · simpa [eraseLapIn, h1] using List.Sublist.cons₂ l ih

/-! ### Branch equations for the endpoints -/

theorem create_driver_snd (db : DB) (nm : String) :
    (create_driver db nm).2
      = ⟨db.drivers ++ [⟨mkId db.nextId, nm⟩], db.laps, db.nextId + 1⟩ := rfl

theorem create_driver_fst (db : DB) (nm : String) :
    (create_driver db nm).1
      = driverOut (create_driver db nm).2 ⟨mkId db.nextId, nm⟩ := rfl

theorem get_driver_eq_none {db : DB} {did : String}
    (h : findDriver db did = none) :
    get_driver db did = .error .driverNotFound := by
  simp [get_driver, h]

theorem get_driver_eq_some {db : DB} {did : String} {d : DriverRec}
    (h : findDriver db did = some d) :
    get_driver db did = .ok (driverOut db d) := by
  simp [get_driver, h]

theorem update_driver_eq_none {db : DB} {did nm : String}
    (h : findDriver db did = none) :
    update_driver db did nm = (.error .driverNotFound, db) := by
  simp [update_driver, h]

theorem update_driver_eq_some {db : DB} {did nm : String} {d : DriverRec}
    (h : findDriver db did = some d) :
    update_driver db did nm
      = (.ok (driverOut ⟨setDriverName db.drivers did nm, db.laps, db.nextId⟩ ⟨d.id, nm⟩),
         ⟨setDriverName db.drivers did nm, db.laps, db.nextId⟩) := by
  simp [update_driver, h]

theorem delete_driver_eq_none {db : DB} {did : String}
    (h : findDriver db did = none) :
    delete_driver db did = (.error .driverNotFound, db) := by
  simp [delete_driver, h]

theorem delete_driver_eq_some {db : DB} {did : String} {d : DriverRec}
    (h : findDriver db did = some d) :
    delete_driver db did
      = (.ok "Driver deleted",
         ⟨eraseDriverIn db.drivers did,
          db.laps.filter (fun l => !(l.driver_id == d.id)), db.nextId⟩) := by
  simp [delete_driver, h]

theorem create_lap_eq_none {db : DB} {did : String} {t : ℚ} {tr : String}
    (h : findDriver db did = none) :
    create_lap db did t tr = (.error .driverNotFound, db) := by
  simp [create_lap, h]

theorem create_lap_eq_some {db : DB} {did : String} {t : ℚ} {tr : String}
    {d : DriverRec} (h : findDriver db did = some d) :
    create_lap db did t tr
      = (.ok ⟨mkId db.nextId, t, tr⟩,
         ⟨db.drivers, db.laps ++ [⟨mkId db.nextId, t, tr, did⟩], db.nextId + 1⟩) := by
  simp [create_lap, h, lapOut]

theorem get_laps_eq_none {db : DB} {did : String}
    (h : findDriver db did = none) :
    get_laps db did = .error .driverNotFound := by
  simp [get_laps, h]

theorem get_laps_eq_some {db : DB} {did : String} {d : DriverRec}
    (h : findDriver db did = some d) :
    get_laps db did
      = .ok ((db.laps.filter (fun l => l.driver_id == d.id)).map lapOut) := by
  simp [get_laps, h]

theorem get_lap_eq_none {db : DB} {did lid : String}
    (h : findLap db lid did = none) :
    get_lap db did lid = .error .lapNotFound := by
  simp [get_lap, h]

theorem get_lap_eq_some {db : DB} {did lid : String} {l : LapRec}
    (h : findLap db lid did = some l) :
    get_lap db did lid = .ok (lapOut l) := by
  simp [get_lap, h]

theorem update_lap_eq_none {db : DB} {did lid : String} {t : ℚ} {tr : String}
    (h : findLap db lid did = none) :
    update_lap db did lid t tr = (.error .lapNotFound, db) := by
  simp [update_lap, h]

theorem update_lap_eq_some {db : DB} {did lid : String} {t : ℚ} {tr : String}
    {l : LapRec} (h : findLap db lid did = some l) :
    update_lap db did lid t tr
      = (.ok (lapOut ⟨l.id, t, tr, l.driver_id⟩),
         ⟨db.drivers, updateLapIn db.laps lid did t tr, db.nextId⟩) := by
  simp [update_lap, h]

theorem delete_lap_eq_none {db : DB} {did lid : String}
    (h : findLap db lid did = none) :
    delete_lap db did lid = (.error .lapNotFound, db) := by
  simp [delete_lap, h]

theorem delete_lap_eq_some {db : DB} {did lid : String} {l : LapRec}
    (h : findLap db lid did = some l) :
    delete_lap db did lid
      = (.ok "Lap deleted",
         ⟨db.drivers, eraseLapIn db.laps lid did, db.nextId⟩) := by
  simp [delete_lap, h]

/-! ### The reachable-state invariant -/

theorem allIds_lt {db : DB} (h : DBInv db) {s : String} (hs : s ∈ allIds db) :
    ∃ k, k < db.nextId ∧ s = mkId k := by
  rcases List.mem_append.mp hs with hs | hs
  · rcases List.mem_map.mp hs with ⟨d, hd, rfl⟩
    exact h.driverIdBound d hd
  · rcases List.mem_map.mp hs with ⟨l, hl, rfl⟩
    exact h.lapIdBound l hl

theorem mkId_nextId_not_mem {db : DB} (h : DBInv db) :
    mkId db.nextId ∉ allIds db := by
  intro hmem
  rcases allIds_lt h hmem with ⟨k, hk, he⟩
  have := mkId_inj he
  omega

theorem updateLapIn_map_id (ls : List LapRec) (lid did : String) (t : ℚ) (tr : String) :
    (updateLapIn ls lid did t tr).map (fun l => l.id) = ls.map (fun l => l.id) := by
  have h := congrArg (List.map Prod.fst) (updateLapIn_map_key ls lid did t tr)
  simpa [List.map_map, Function.comp] using h

theorem dbinv_createDriver (db : DB) (nm : String) (h : DBInv db) :
    DBInv (create_driver db nm).2 := by
  rw [create_driver_snd]
  refine ⟨?_, ?_, ?_, ?_⟩
  · intro d hd
    rcases List.mem_append.mp hd with hd | hd
    · rcases h.driverIdBound d hd with ⟨k, hk, he⟩
      exact ⟨k, Nat.lt_succ_of_lt hk, he⟩
    · rcases List.mem_singleton.mp hd with rfl
      exact ⟨db.nextId, Nat.lt_succ_self _, rfl⟩
  · intro l hl
    rcases h.lapIdBound l hl with ⟨k, hk, he⟩
    exact ⟨k, Nat.lt_succ_of_lt hk, he⟩
  · intro l hl
    rcases h.lapOwner l hl with ⟨d, hd, he⟩
    exact ⟨d, List.mem_append_left _ hd, he⟩
  · have hperm :
        List.Perm
          (allIds ⟨db.drivers ++ [⟨mkId db.nextId, nm⟩], db.laps, db.nextId + 1⟩)
          (mkId db.nextId :: allIds db) := by
      simp only [allIds, List.map_append, List.map_cons, List.map_nil]
      rw [List.append_assoc]
      exact List.perm_middle
    rw [hperm.nodup_iff]
    exact List.nodup_cons.mpr ⟨mkId_nextId_not_mem h, h.idsNodup⟩

theorem dbinv_updateDriver (db : DB) (did nm : String) (h : DBInv db) :
    DBInv (update_driver db did nm).2 := by
  cases hf : findDriver db did with
  | none => rw [update_driver_eq_none hf]; exact h
  | some d =>
    rw [update_driver_eq_some hf]
    have hmap := setDriverName_map_id db.drivers did nm
    refine ⟨?_, h.lapIdBound, ?_, ?_⟩
    · intro d2 hd2
      have hmem : d2.id ∈ db.drivers.map (fun d => d.id) := by
        rw [← hmap]
        exact List.mem_map_of_mem _ hd2
      rcases List.mem_map.mp hmem with ⟨d0, hd0, he⟩
      rcases h.driverIdBound d0 hd0 with ⟨k, hk, he0⟩
      exact ⟨k, hk, he ▸ he0⟩
    · intro l hl
      rcases h.lapOwner l hl with ⟨d0, hd0, he⟩
      have hmem : l.driver_id ∈ (setDriverName db.drivers did nm).map (fun d => d.id) := by
        rw [hmap]
        exact he ▸ List.mem_map_of_mem _ hd0
      rcases List.mem_map.mp hmem with ⟨d2, hd2, he2⟩
      exact ⟨d2, hd2, he2⟩
    · have he : allIds ⟨setDriverName db.drivers did nm, db.laps, db.nextId⟩
          = allIds db := by
        simp only [allIds]
        rw [hmap]
      rw [he]
      exact h.idsNodup

theorem dbinv_deleteDriver (db : DB) (did : String) (h : DBInv db) :
    DBInv (delete_driver db did).2 := by
  cases hf : findDriver db did with
  | none => rw [delete_driver_eq_none hf]; exact h
  | some d =>
    rw [delete_driver_eq_some hf]
    have hsubd := eraseDriverIn_sublist db.drivers did
    have hsubl : List.Sublist (db.laps.filter (fun l => !(l.driver_id == d.id))) db.laps :=
      List.filter_sublist _
    refine ⟨?_, ?_, ?_, ?_⟩
    · intro d2 hd2
      exact h.driverIdBound d2 (hsubd.subset hd2)
    · intro l hl
      exact h.lapIdBound l (hsubl.subset hl)
    · intro l hl
      have hm := List.mem_filter.mp hl
      have hne : l.driver_id ≠ d.id := by simpa using hm.2
      rcases h.lapOwner l hm.1 with ⟨d0, hd0, he⟩
      have hne0 : d0.id ≠ did := by
        rw [he, ← (findDriver_some hf).2]
        exact hne
      exact ⟨d0, mem_eraseDriverIn hd0 hne0, he⟩
    · simp only [allIds]
      exact List.Nodup.sublist (List.Sublist.append (hsubd.map _) (hsubl.map _)) h.idsNodup

theorem dbinv_createLap (db : DB) (did : String) (t : ℚ) (tr : String) (h : DBInv db) :
    DBInv (create_lap db did t tr).2 := by
  cases hf : findDriver db did with
  | none => rw [create_lap_eq_none hf]; exact h
  | some d =>
    rw [create_lap_eq_some hf]
    refine ⟨?_, ?_, ?_, ?_⟩
    · intro d2 hd2
      rcases h.driverIdBound d2 hd2 with ⟨k, hk, he⟩
      exact ⟨k, Nat.lt_succ_of_lt hk, he⟩
    · intro l hl
      rcases List.mem_append.mp hl with hl | hl
      · rcases h.lapIdBound l hl with ⟨k, hk, he⟩
        exact ⟨k, Nat.lt_succ_of_lt hk, he⟩
      · rcases List.mem_singleton.mp hl with rfl
        exact ⟨db.nextId, Nat.lt_succ_self _, rfl⟩
    · intro l hl
      rcases List.mem_append.mp hl with hl | hl
      · exact h.lapOwner l hl
      · rcases List.mem_singleton.mp hl with rfl
        exact ⟨d, (findDriver_some hf).1, (findDriver_some hf).2⟩
    · have hperm :
          List.Perm
            (allIds ⟨db.drivers, db.laps ++ [⟨mkId db.nextId, t, tr, did⟩], db.nextId + 1⟩)
            (mkId db.nextId :: allIds db) := by
        simp only [allIds, List.map_append, List.map_cons, List.map_nil]
        rw [← List.append_assoc]
        exact List.perm_append_singleton _ _
      rw [hperm.nodup_iff]
      exact List.nodup_cons.mpr ⟨mkId_nextId_not_mem h, h.idsNodup⟩

theorem dbinv_updateLap (db : DB) (did lid : String) (t : ℚ) (tr : String)
    (h : DBInv db) : DBInv (update_lap db did lid t tr).2 := by
  cases hf : findLap db lid did with
  | none => rw [update_lap_eq_none hf]; exact h
  | some l =>
    rw [update_lap_eq_some hf]
    refine ⟨h.driverIdBound, ?_, ?_, ?_⟩
    · intro l2 hl2
      rcases updateLapIn_mem hl2 with ⟨l0, hl0, hid, hdid⟩
      rcases h.lapIdBound l0 hl0 with ⟨k, hk, he⟩
      exact ⟨k, hk, hid.trans he⟩
    · intro l2 hl2
      rcases updateLapIn_mem hl2 with ⟨l0, hl0, hid, hdid⟩
      rcases h.lapOwner l0 hl0 with ⟨d0, hd0, he⟩
      refine ⟨d0, hd0, ?_⟩
      rw [he, ← hdid]
    · simp only [allIds]
      rw [updateLapIn_map_id]
      exact h.idsNodup

theorem dbinv_deleteLap (db : DB) (did lid : String) (h : DBInv db) :
    DBInv (delete_lap db did lid).2 := by
  cases hf : findLap db lid did with
  | none => rw [delete_lap_eq_none hf]; exact h
  | some l =>
    rw [delete_lap_eq_some hf]
    have hsub := eraseLapIn_sublist db.laps lid did
    refine ⟨h.driverIdBound, ?_, ?_, ?_⟩
    · intro l2 hl2
      exact h.lapIdBound l2 (hsub.subset hl2)
    · intro l2 hl2
      exact h.lapOwner l2 (hsub.subset hl2)
    · simp only [allIds]
      exact List.Nodup.sublist (List.Sublist.append (List.Sublist.refl _) (hsub.map _)) h.idsNodup

theorem dbinv_step (db : DB) (op : Op) (h : DBInv db) : DBInv (stepOp db op) := by
  cases op with
  | createDriver nm => exact dbinv_createDriver db nm h
  | listDrivers => exact h
  | getDriver did => exact h
  | updateDriver did nm => exact dbinv_updateDriver db did nm h
  | deleteDriver did => exact dbinv_deleteDriver db did h
  | createLap did t tr => exact dbinv_createLap db did t tr h
  | listLaps did => exact h
  | getLap did lid => exact h
  | updateLap did lid t tr => exact dbinv_updateLap db did lid t tr h
  | deleteLap did lid => exact dbinv_deleteLap db did lid h

theorem dbinv_empty : DBInv emptyDB := by
  refine ⟨?_, ?_, ?_, ?_⟩ <;> simp [emptyDB, allIds]

theorem dbinv_reachable {db : DB} (h : Reachable db) : DBInv db := by
  induction h with
  | init => exact dbinv_empty
  | step db op hr ih => exact dbinv_step db op ih

theorem reachable_run (db : DB) (ops : List Op) (h : Reachable db) :
    Reachable (run db ops) := by
  induction ops generalizing db with
  | nil => exact h
  | cons op ops ih => exact ih _ (Reachable.step db op h)

theorem reachable_run0 (ops : List Op) : Reachable (run emptyDB ops) :=
  reachable_run emptyDB ops Reachable.init

theorem stepOp_nextId_le (db : DB) (op : Op) : db.nextId ≤ (stepOp db op).nextId := by
  cases op with
  | createDriver nm => exact Nat.le_succ _
  | listDrivers => exact Nat.le_refl _
  | getDriver did => exact Nat.le_refl _
  | updateDriver did nm =>
    show db.nextId ≤ (update_driver db did nm).2.nextId
    cases hf : findDriver db did with
    | none => rw [update_driver_eq_none hf]
    | some d => rw [update_driver_eq_some hf]
  | deleteDriver did =>
    show db.nextId ≤ (delete_driver db did).2.nextId
    cases hf : findDriver db did with
    | none => rw [delete_driver_eq_none hf]
    | some d => rw [delete_driver_eq_some hf]
  | createLap did t tr =>
    show db.nextId ≤ (create_lap db did t tr).2.nextId
    cases hf : findDriver db did with
    | none => rw [create_lap_eq_none hf]
    | some d =>
      rw [create_lap_eq_some hf]
      exact Nat.le_succ _
  | listLaps did => exact Nat.le_refl _
  | getLap did lid => exact Nat.le_refl _
  | updateLap did lid t tr =>
    show db.nextId ≤ (update_lap db did lid t tr).2.nextId
    cases hf : findLap db lid did with
    | none => rw [update_lap_eq_none hf]
    | some l => rw [update_lap_eq_some hf]
  | deleteLap did lid =>
    show db.nextId ≤ (delete_lap db did lid).2.nextId
    cases hf : findLap db lid did with
    | none => rw [delete_lap_eq_none hf]
    | some l => rw [delete_lap_eq_some hf]

theorem run_nextId_le (ops : List Op) : ∀ db : DB, db.nextId ≤ (run db ops).nextId := by
  induction ops with
  | nil => intro db; exact Nat.le_refl _
  | cons op ops ih =>
    intro db
    exact Nat.le_trans (stepOp_nextId_le db op) (ih (stepOp db op))

/-! ### Facts about issued identifiers -/

theorem issuedNow_mem {db : DB} {op : Op} {s : String} (h : s ∈ issuedNow db op) :
    s = mkId db.nextId ∧ (stepOp db op).nextId = db.nextId + 1 := by
  cases op with
  | createDriver nm => exact ⟨List.mem_singleton.mp h, rfl⟩
  | createLap did t tr =>
    cases hf : findDriver db did with
    | none => simp [issuedNow, hf] at h
    | some d =>
      refine ⟨?_, ?_⟩
      · rw [show issuedNow db (Op.createLap did t tr) = [mkId db.nextId] by
          simp [issuedNow, hf]] at h
        exact List.mem_singleton.mp h
      · show (create_lap db did t tr).2.nextId = db.nextId + 1
        rw [create_lap_eq_some hf]
  | listDrivers => simp [issuedNow] at h
  | getDriver did => simp [issuedNow] at h
  | updateDriver did nm => simp [issuedNow] at h
  | deleteDriver did => simp [issuedNow] at h
  | listLaps did => simp [issuedNow] at h
  | getLap did lid => simp [issuedNow] at h
  | updateLap did lid t tr => simp [issuedNow] at h
  | deleteLap did lid => simp [issuedNow] at h

theorem issuedNow_nodup (db : DB) (op : Op) : (issuedNow db op).Nodup := by
  cases op with
  | createLap did t tr =>
    cases hf : findDriver db did with
    | none => simp [issuedNow, hf]
    | some d => simp [issuedNow, hf]
  | createDriver nm => simp [issuedNow]
  | listDrivers => simp [issuedNow]
  | getDriver did => simp [issuedNow]
  | updateDriver did nm => simp [issuedNow]
  | deleteDriver did => simp [issuedNow]
  | listLaps did => simp [issuedNow]
  | getLap did lid => simp [issuedNow]
  | updateLap did lid t tr => simp [issuedNow]
  | deleteLap did lid => simp [issuedNow]

theorem issued_bound (ops : List Op) :
    ∀ db : DB, ∀ s ∈ issued db ops,
      ∃ k, db.nextId ≤ k ∧ k < (run db ops).nextId ∧ s = mkId k := by
  induction ops with
  | nil =>
    intro db s hs
    simp [issued] at hs
  | cons op ops ih =>
    intro db s hs
    simp only [issued] at hs
    rcases List.mem_append.mp hs with hs | hs
    · rcases issuedNow_mem hs with ⟨rfl, hstep⟩
      refine ⟨db.nextId, Nat.le_refl _, ?_, rfl⟩
      have h2 := run_nextId_le ops (stepOp db op)
      simp only [run]
      omega
    · rcases ih (stepOp db op) s hs with ⟨k, hk1, hk2, he⟩
      have h3 := stepOp_nextId_le db op
      refine ⟨k, Nat.le_trans h3 hk1, ?_, he⟩
      simp only [run]
      exact hk2

theorem issued_nodup (ops : List Op) : ∀ db : DB, (issued db ops).Nodup := by
  induction ops with
  | nil => intro db; simp [issued]
  | cons op ops ih =>
    intro db
    simp only [issued]
    rw [List.nodup_append]
    refine ⟨issuedNow_nodup db op, ih _, ?_⟩
    intro s hs1 hs2
    rcases issuedNow_mem hs1 with ⟨rfl, hstep⟩
    rcases issued_bound ops (stepOp db op) _ hs2 with ⟨k, hk1, hk2, he⟩
    have := mkId_inj he
    omega

theorem updateLapIn_mem_time {ls : List LapRec} {lid did : String} {t : ℚ} {tr : String}
    {l2 : LapRec} (h : l2 ∈ updateLapIn ls lid did t tr) :
    l2 ∈ ls ∨ l2.lap_time = t := by
  induction ls with
  | nil => simp [updateLapIn] at h
  | cons l ls ih =>
    by_cases hc : l.id = lid ∧ l.driver_id = did
    · rw [show updateLapIn (l :: ls) lid did t tr = ⟨l.id, t, tr, l.driver_id⟩ :: ls by
        simp [updateLapIn, hc.1, hc.2]] at h
      rcases List.mem_cons.mp h with rfl | h
      · exact Or.inr rfl
      · exact Or.inl (List.mem_cons_of_mem _ h)
    · have hcb : (l.id == lid && l.driver_id == did) = false := by
        rw [Decidable.not_and_iff_or_not] at hc
        rcases hc with hc | hc <;> simp [hc]
      rw [show updateLapIn (l :: ls) lid did t tr = l :: updateLapIn ls lid did t tr by
        simp [updateLapIn, hcb]] at h
      rcases List.mem_cons.mp h with rfl | h
      · exact Or.inl (List.mem_cons_self _ _)
      · rcases ih h with h | h
        · exact Or.inl (List.mem_cons_of_mem _ h)
        · exact Or.inr h

/-! ### The claims -/

/-- C1: for every state, every driver id `X` and every lap id `L` that is
present in the state but only on laps owned by drivers other than `X`,
`get_lap` with claimed owner `X` returns `Lap not found` and never the lap,
and `update_lap` and `delete_lap` under the same owner-matching rule also
return `Lap not found` and leave the store unchanged. -/
theorem claim1_lap_owner_scoping (db : DB) (X L : String) (t : ℚ) (tr : String)
    (_hex : ∃ l ∈ db.laps, l.id = L)
    (hown : ∀ l ∈ db.laps, l.id = L → l.driver_id ≠ X) :
    get_lap db X L = .error .lapNotFound ∧
    update_lap db X L t tr = (.error .lapNotFound, db) ∧
    delete_lap db X L = (.error .lapNotFound, db) := by
  have hnone : findLap db L X = none := findLap_none.mpr hown
  exact ⟨get_lap_eq_none hnone, update_lap_eq_none hnone, delete_lap_eq_none hnone⟩

/-- Witness for C1 at a concrete store: lap `l1` is owned by `d1`, so the
three lap operations claimed for `d2` all fail with `Lap not found`. -/
theorem claim1_lap_owner_scoping_witness :
    get_lap sampleDB "d2" "l1" = .error .lapNotFound ∧
    update_lap sampleDB "d2" "l1" 9 "Monza" = (.error .lapNotFound, sampleDB) ∧
    delete_lap sampleDB "d2" "l1" = (.error .lapNotFound, sampleDB) :=
  claim1_lap_owner_scoping sampleDB "d2" "l1" 9 "Monza"
    ⟨⟨"l1", 5, "Spa", "d1"⟩, by decide, rfl⟩ (by decide)

/-- C5: every operation either fully applies or has no effect; on the
not-found branch each operation returns its error and returns the store
unchanged (the `HTTPException` is raised before any mutation). -/
theorem claim5_notfound_no_effect (db : DB) (X L nm tr : String) (t : ℚ) :
    (findDriver db X = none →
       get_driver db X = .error .driverNotFound ∧
       update_driver db X nm = (.error .driverNotFound, db) ∧
       delete_driver db X = (.error .driverNotFound, db) ∧
       create_lap db X t tr = (.error .driverNotFound, db) ∧
       get_laps db X = .error .driverNotFound) ∧
    (findLap db L X = none →
       get_lap db X L = .error .lapNotFound ∧
       update_lap db X L t tr = (.error .lapNotFound, db) ∧
       delete_lap db X L = (.error .lapNotFound, db)) := by
  constructor
  · intro h
    exact ⟨get_driver_eq_none h, update_driver_eq_none h, delete_driver_eq_none h,
      create_lap_eq_none h, get_laps_eq_none h⟩
  · intro h
    exact ⟨get_lap_eq_none h, update_lap_eq_none h, delete_lap_eq_none h⟩

/-- Witness for C5 at a concrete store and a driver id that is absent. -/
theorem claim5_notfound_no_effect_witness :
    (get_driver sampleDB "nope" = .error .driverNotFound ∧
     update_driver sampleDB "nope" "N" = (.error .driverNotFound, sampleDB) ∧
     delete_driver sampleDB "nope" = (.error .driverNotFound, sampleDB) ∧
     create_lap sampleDB "nope" 9 "Monza" = (.error .driverNotFound, sampleDB) ∧
     get_laps sampleDB "nope" = .error .driverNotFound) ∧
    (get_lap sampleDB "nope" "l1" = .error .lapNotFound ∧
     update_lap sampleDB "nope" "l1" 9 "Monza" = (.error .lapNotFound, sampleDB) ∧
     delete_lap sampleDB "nope" "l1" = (.error .lapNotFound, sampleDB)) :=
  have h := claim5_notfound_no_effect sampleDB "nope" "l1" "N" "Monza" 9
  ⟨h.1 (by decide), h.2 (by decide)⟩

/-- C9: `get_laps` returns `Driver not found` when the driver id resolves to
no driver, and otherwise exactly the laps whose `driver_id` is the driver's
id, in store (insertion) order; a lap created afterwards appears appended at
the end of that list. -/
theorem claim9_list_laps (db : DB) (did : String) (t : ℚ) (tr : String) :
    (findDriver db did = none → get_laps db did = .error .driverNotFound) ∧
    (∀ d, findDriver db did = some d →
       get_laps db did
         = .ok ((db.laps.filter (fun l => l.driver_id == did)).map lapOut)) ∧
    (∀ d, findDriver db did = some d →
       get_laps (create_lap db did t tr).2 did
         = .ok (((db.laps.filter (fun l => l.driver_id == did)).map lapOut)
             ++ [⟨mkId db.nextId, t, tr⟩])) := by
  refine ⟨fun h => get_laps_eq_none h, ?_, ?_⟩
  · intro d h
    rw [get_laps_eq_some h, (findDriver_some h).2]
  · intro d h
    have hd2 : findDriver (create_lap db did t tr).2 did = some d := by
      rw [create_lap_eq_some h]
      exact h
    have hlaps : (create_lap db did t tr).2.laps
        = db.laps ++ [⟨mkId db.nextId, t, tr, did⟩] := by
      rw [create_lap_eq_some h]
    rw [get_laps_eq_some hd2, hlaps, List.filter_append, List.map_append]
    simp [(findDriver_some h).2, lapOut]

/-- Witness for C9 at a concrete store: listing `d1`'s laps returns its one
lap, and after creating a second lap the list grows at the end. -/
theorem claim9_list_laps_witness :
    get_laps sampleDB "d1" = .ok [⟨"l1", 5, "Spa"⟩] ∧
    get_laps (create_lap sampleDB "d1" 7 "Monza").2 "d1"
      = .ok [⟨"l1", 5, "Spa"⟩, ⟨mkId 0, 7, "Monza"⟩] := by
  have h := claim9_list_laps sampleDB "d1" 7 "Monza"
  constructor
  · rw [h.2.1 ⟨"d1", "A"⟩ (by decide)]
    decide
  · rw [h.2.2 ⟨"d1", "A"⟩ (by decide)]
    decide

/-- C10: for every reachable state and every driver id that resolves to no
driver, `get_lap`, `update_lap` and `delete_lap` return `Lap not found` —
not `Driver not found`: they perform no driver-existence check, only the
combined (lap id, driver id) lookup, and no stored lap can carry the absent
driver id. -/
theorem claim10_missing_driver_lap_ops (db : DB) (X L tr : String) (t : ℚ)
    (hr : Reachable db) (hnd : findDriver db X = none) :
    get_lap db X L = .error .lapNotFound ∧
    update_lap db X L t tr = (.error .lapNotFound, db) ∧
    delete_lap db X L = (.error .lapNotFound, db) := by
  have hinv := dbinv_reachable hr
  have hnone : findLap db L X = none := by
    rw [findLap_none]
    intro l hl hid hdid
    rcases hinv.lapOwner l hl with ⟨d, hd, he⟩
    exact findDriver_none.mp hnd d hd (he.trans hdid)
  exact ⟨get_lap_eq_none hnone, update_lap_eq_none hnone, delete_lap_eq_none hnone⟩

/-- Witness for C10 at a concrete reachable store: the lap exists but the
claimed driver id does not, and all three operations answer `Lap not found`. -/
theorem claim10_missing_driver_lap_ops_witness :
    get_lap (run emptyDB [Op.createDriver "A", Op.createLap (mkId 0) 5 "Spa"])
        "ghost" (mkId 1) = .error .lapNotFound ∧
    update_lap (run emptyDB [Op.createDriver "A", Op.createLap (mkId 0) 5 "Spa"])
        "ghost" (mkId 1) 9 "Monza"
      = (.error .lapNotFound,
         run emptyDB [Op.createDriver "A", Op.createLap (mkId 0) 5 "Spa"]) ∧
    delete_lap (run emptyDB [Op.createDriver "A", Op.createLap (mkId 0) 5 "Spa"])
        "ghost" (mkId 1)
      = (.error .lapNotFound,
         run emptyDB [Op.createDriver "A", Op.createLap (mkId 0) 5 "Spa"]) :=
  claim10_missing_driver_lap_ops _ "ghost" (mkId 1) "Monza" 9
    (reachable_run0 _) (by decide)

/-- C6: `update_driver` and `update_lap` are idempotent: whenever the
targeted driver exists, applying the same driver update twice returns the
same response both times and the store after the second application equals
the store after the first; likewise for `update_lap` whenever the targeted
lap exists under the claimed owner.  No record is duplicated. -/
theorem claim6_update_idempotent (db : DB) (X L nm tr : String) (t : ℚ) :
    ((findDriver db X).isSome →
       update_driver (update_driver db X nm).2 X nm = update_driver db X nm) ∧
    ((findLap db L X).isSome →
       update_lap (update_lap db X L t tr).2 X L t tr = update_lap db X L t tr) := by
  constructor
  · intro hd
    rcases Option.isSome_iff_exists.mp hd with ⟨d, hf⟩
    rw [update_driver_eq_some hf]
    have hf2 : findDriver ⟨setDriverName db.drivers X nm, db.laps, db.nextId⟩ X
        = some ⟨d.id, nm⟩ := by
      show (setDriverName db.drivers X nm).find? (fun d => d.id == X) = _
      rw [setDriverName_find?_self,
        show db.drivers.find? (fun d => d.id == X) = some d from hf]
      rfl
    rw [update_driver_eq_some hf2]
    simp [setDriverName_idem]
  · intro hl
    rcases Option.isSome_iff_exists.mp hl with ⟨l, hf⟩
    rw [update_lap_eq_some hf]
    have hf2 : findLap ⟨db.drivers, updateLapIn db.laps L X t tr, db.nextId⟩ L X
        = some ⟨l.id, t, tr, l.driver_id⟩ := by
      show (updateLapIn db.laps L X t tr).find?
          (fun l => l.id == L && l.driver_id == X) = _
      rw [updateLapIn_find?_self,
        show db.laps.find? (fun l => l.id == L && l.driver_id == X) = some l from hf]
      rfl
    rw [update_lap_eq_some hf2]
    simp [updateLapIn_idem]

/-- Witness for C6 at a concrete store: the driver conjunct on `d2`, which
owns no laps, and the lap conjunct on `d1`'s lap `l1`. -/
theorem claim6_update_idempotent_witness :
    update_driver (update_driver sampleDB "d2" "Z").2 "d2" "Z"
        = update_driver sampleDB "d2" "Z" ∧
    update_lap (update_lap sampleDB "d1" "l1" 9 "Monza").2 "d1" "l1" 9 "Monza"
        = update_lap sampleDB "d1" "l1" 9 "Monza" :=
  ⟨(claim6_update_idempotent sampleDB "d2" "l1" "Z" "Monza" 9).1 (by decide),
   (claim6_update_idempotent sampleDB "d1" "l1" "Z" "Monza" 9).2 (by decide)⟩

/-- C3: in every state reachable from the empty store by the public
operations, every stored lap's `driver_id` references a stored driver
(no orphaned laps). -/
theorem claim3_no_orphan_laps (db : DB) (hr : Reachable db) :
    ∀ l ∈ db.laps, ∃ d ∈ db.drivers, d.id = l.driver_id :=
  (dbinv_reachable hr).lapOwner

/-- Witness for C3 at a concrete reachable store with one driver and one
lap. -/
theorem claim3_no_orphan_laps_witness :
    ∃ d ∈ (run emptyDB [Op.createDriver "A", Op.createLap (mkId 0) 5 "Spa"]).drivers,
      d.id = (LapRec.mk (mkId 1) 5 "Spa" (mkId 0)).driver_id :=
  claim3_no_orphan_laps _ (reachable_run0 _) ⟨mkId 1, 5, "Spa", mkId 0⟩ (by decide)

/-- C2: deleting an existing driver succeeds and cascades in one step:
afterwards `get_lap` on any lap id the driver owned returns `Lap not found`
for every claimed driver id, and `get_driver` and `get_laps` on the deleted
driver return `Driver not found`.  The whole cascade is a single transition
of the store. -/
theorem claim2_delete_driver_cascade (db : DB) (X : String) (d : DriverRec)
    (hr : Reachable db) (hf : findDriver db X = some d) :
    (delete_driver db X).1 = .ok "Driver deleted" ∧
    (∀ L claimed, (∃ l ∈ db.laps, l.driver_id = X ∧ l.id = L) →
       get_lap (delete_driver db X).2 claimed L = .error .lapNotFound) ∧
    get_driver (delete_driver db X).2 X = .error .driverNotFound ∧
    get_laps (delete_driver db X).2 X = .error .driverNotFound := by
  have hinv := dbinv_reachable hr
  have hdid : d.id = X := (findDriver_some hf).2
  have hdnodup : (db.drivers.map (fun d => d.id)).Nodup :=
    List.Nodup.of_append_left hinv.idsNodup
  have hlnodup : (db.laps.map (fun l => l.id)).Nodup :=
    List.Nodup.of_append_right hinv.idsNodup
  have hddel : findDriver (delete_driver db X).2 X = none := by
    rw [delete_driver_eq_some hf]
    show (eraseDriverIn db.drivers X).find? (fun d => d.id == X) = none
    exact eraseDriverIn_find?_self hdnodup
  refine ⟨?_, ?_, get_driver_eq_none hddel, get_laps_eq_none hddel⟩
  · rw [delete_driver_eq_some hf]
  · intro L claimed hex
    rcases hex with ⟨l, hl, hown, hid⟩
    apply get_lap_eq_none
    rw [findLap_none]
    intro l2 hl2 hid2
    exfalso
    have hl2m : l2 ∈ db.laps.filter (fun l => !(l.driver_id == d.id)) := by
      have he2 : (delete_driver db X).2.laps
          = db.laps.filter (fun l => !(l.driver_id == d.id)) := by
        rw [delete_driver_eq_some hf]
      rw [← he2]
      exact hl2
    have hm := List.mem_filter.mp hl2m
    have hne : l2.driver_id ≠ d.id := by simpa using hm.2
    have hne12 : l ≠ l2 := by
      intro he
      rw [he] at hown
      exact hne (hown.trans hdid.symm)
    exact hne12 (List.inj_on_of_nodup_map hlnodup hl hm.1 (hid.trans hid2.symm))

/-- Witness for C2 at a concrete reachable store: one driver with one lap;
after the delete, the lap is gone under every claimed owner and the driver
resolves to `Driver not found`. -/
theorem claim2_delete_driver_cascade_witness :
    (delete_driver (run emptyDB [Op.createDriver "A", Op.createLap (mkId 0) 5 "Spa"])
        (mkId 0)).1 = .ok "Driver deleted" ∧
    get_lap (delete_driver
        (run emptyDB [Op.createDriver "A", Op.createLap (mkId 0) 5 "Spa"]) (mkId 0)).2
        "anyone" (mkId 1) = .error .lapNotFound ∧
    get_driver (delete_driver
        (run emptyDB [Op.createDriver "A", Op.createLap (mkId 0) 5 "Spa"]) (mkId 0)).2
        (mkId 0) = .error .driverNotFound ∧
    get_laps (delete_driver
        (run emptyDB [Op.createDriver "A", Op.createLap (mkId 0) 5 "Spa"]) (mkId 0)).2
        (mkId 0) = .error .driverNotFound :=
  have h := claim2_delete_driver_cascade
    (run emptyDB [Op.createDriver "A", Op.createLap (mkId 0) 5 "Spa"]) (mkId 0)
    ⟨mkId 0, "A"⟩ (reachable_run0 _) (by decide)
  ⟨h.1, h.2.1 (mkId 1) "anyone" ⟨⟨mkId 1, 5, "Spa", mkId 0⟩, by decide, rfl, rfl⟩,
   h.2.2.1, h.2.2.2⟩

/-- C7: round-trip on a reachable store: create a driver, create a lap under
it; the lap creation succeeds, returns exactly the supplied `lap_time` and
`track`, and `get_driver` on the new driver then succeeds with the new lap —
with exactly those field values — in its lap list. -/
theorem claim7_create_roundtrip (db : DB) (nm tr : String) (t : ℚ)
    (hr : Reachable db) :
    (create_lap (create_driver db nm).2 ((create_driver db nm).1).id t tr).1
        = .ok ⟨mkId (db.nextId + 1), t, tr⟩ ∧
    get_driver (create_lap (create_driver db nm).2 ((create_driver db nm).1).id t tr).2
        ((create_driver db nm).1).id
      = .ok ⟨mkId db.nextId, nm, [⟨mkId (db.nextId + 1), t, tr⟩]⟩ := by
  have hinv := dbinv_reachable hr
  have hid : ((create_driver db nm).1).id = mkId db.nextId := rfl
  rw [hid]
  have hfind1 : db.drivers.find? (fun d => d.id == mkId db.nextId) = none := by
    rw [List.find?_eq_none]
    intro d hd
    simp only [beq_iff_eq]
    intro he
    rcases hinv.driverIdBound d hd with ⟨k, hk, he2⟩
    rw [he2] at he
    have := mkId_inj he
    omega
  have hf1 : findDriver (create_driver db nm).2 (mkId db.nextId)
      = some ⟨mkId db.nextId, nm⟩ := by
    show (db.drivers ++ ([⟨mkId db.nextId, nm⟩] : List DriverRec)).find?
        (fun d => d.id == mkId db.nextId) = some ⟨mkId db.nextId, nm⟩
    rw [List.find?_append, hfind1]
    simp
  constructor
  · rw [create_lap_eq_some hf1]
    rfl
  · have hf2 : findDriver (create_lap (create_driver db nm).2 (mkId db.nextId) t tr).2
        (mkId db.nextId) = some ⟨mkId db.nextId, nm⟩ := by
      rw [create_lap_eq_some hf1]
      exact hf1
    rw [get_driver_eq_some hf2]
    have hlaps : (create_lap (create_driver db nm).2 (mkId db.nextId) t tr).2.laps
        = db.laps ++ [⟨mkId (db.nextId + 1), t, tr, mkId db.nextId⟩] := by
      rw [create_lap_eq_some hf1]
      rfl
    have hfilter : db.laps.filter (fun l => l.driver_id == mkId db.nextId) = [] := by
      rw [List.filter_eq_nil_iff]
      intro l hl
      simp only [beq_iff_eq]
      intro he
      rcases hinv.lapOwner l hl with ⟨d0, hd0, he0⟩
      rcases hinv.driverIdBound d0 hd0 with ⟨k, hk, he2⟩
      rw [← he0, he2] at he
      have := mkId_inj he
      omega
    simp only [driverOut, hlaps, List.filter_append, hfilter]
    simp [lapOut]

/-- Witness for C7 starting from the empty store. -/
theorem claim7_create_roundtrip_witness :
    (create_lap (create_driver emptyDB "Max").2
        ((create_driver emptyDB "Max").1).id 5 "Spa").1
        = .ok ⟨mkId (emptyDB.nextId + 1), 5, "Spa"⟩ ∧
    get_driver (create_lap (create_driver emptyDB "Max").2
        ((create_driver emptyDB "Max").1).id 5 "Spa").2
        ((create_driver emptyDB "Max").1).id
      = .ok ⟨mkId emptyDB.nextId, "Max", [⟨mkId (emptyDB.nextId + 1), 5, "Spa"⟩]⟩ :=
  claim7_create_roundtrip emptyDB "Max" "Spa" 5 Reachable.init

/-- C8: identifiers are fresh and never reused: over any request sequence
from the empty store the issued ids are pairwise distinct, and the id a
successful `create_driver` or `create_lap` returns next is non-empty,
differs from every id stored in the current state, and differs from every
id ever issued before. -/
theorem claim8_ids_fresh_unique (ops : List Op) (nm tr : String) (t : ℚ) :
    (issued emptyDB ops).Nodup ∧
    ((create_driver (run emptyDB ops) nm).1.id ≠ "" ∧
     (create_driver (run emptyDB ops) nm).1.id ∉ allIds (run emptyDB ops) ∧
     (create_driver (run emptyDB ops) nm).1.id ∉ issued emptyDB ops) ∧
    (∀ did out db2, create_lap (run emptyDB ops) did t tr = (.ok out, db2) →
       out.id ≠ "" ∧ out.id ∉ allIds (run emptyDB ops) ∧
       out.id ∉ issued emptyDB ops) := by
  have hinv := dbinv_reachable (reachable_run0 ops)
  have hidfact : ∀ s : String, s = mkId (run emptyDB ops).nextId →
      s ≠ "" ∧ s ∉ allIds (run emptyDB ops) ∧ s ∉ issued emptyDB ops := by
    intro s hs
    subst hs
    refine ⟨mkId_ne_empty _, mkId_nextId_not_mem hinv, ?_⟩
    intro hmem
    rcases issued_bound ops emptyDB _ hmem with ⟨k, hk1, hk2, he⟩
    have := mkId_inj he
    omega
  refine ⟨issued_nodup ops emptyDB, hidfact _ rfl, ?_⟩
  intro did out db2 heq
  cases hf : findDriver (run emptyDB ops) did with
  | none =>
    rw [create_lap_eq_none hf] at heq
    have h1 : (Except.error ApiError.driverNotFound : Except ApiError LapOut)
        = .ok out := congrArg Prod.fst heq
    exact Except.noConfusion h1
  | some d =>
    rw [create_lap_eq_some hf] at heq
    have h1 : (Except.ok (⟨mkId (run emptyDB ops).nextId, t, tr⟩ : LapOut)
        : Except ApiError LapOut) = .ok out := congrArg Prod.fst heq
    injection h1 with h1
    rw [← h1]
    exact hidfact _ rfl

/-- Witness for C8 on the one-request trace `create_driver "A"`. -/
theorem claim8_ids_fresh_unique_witness :
    (issued emptyDB [Op.createDriver "A"]).Nodup ∧
    ((create_driver (run emptyDB [Op.createDriver "A"]) "B").1.id ≠ "" ∧
     (create_driver (run emptyDB [Op.createDriver "A"]) "B").1.id
        ∉ allIds (run emptyDB [Op.createDriver "A"]) ∧
     (create_driver (run emptyDB [Op.createDriver "A"]) "B").1.id
        ∉ issued emptyDB [Op.createDriver "A"]) ∧
    ((⟨mkId 1, 5, "Spa"⟩ : LapOut).id ≠ "" ∧
     (⟨mkId 1, 5, "Spa"⟩ : LapOut).id ∉ allIds (run emptyDB [Op.createDriver "A"]) ∧
     (⟨mkId 1, 5, "Spa"⟩ : LapOut).id ∉ issued emptyDB [Op.createDriver "A"]) :=
  have h := claim8_ids_fresh_unique [Op.createDriver "A"] "B" "Spa" 5
  ⟨h.1, h.2.1,
   h.2.2 (mkId 0) ⟨mkId 1, 5, "Spa"⟩
     (create_lap (run emptyDB [Op.createDriver "A"]) (mkId 0) 5 "Spa").2 (by decide)⟩

/-- C4 fails on the code: no positivity check exists anywhere on `lap_time`,
so a reachable state holds a lap whose `lap_time` is `-1`.  The trace below
creates a driver and then a lap with `lap_time = -1`, which the service
stores unchanged. -/
theorem claim4_lap_time_counterexample :
    Reachable (run emptyDB [Op.createDriver "A", Op.createLap (mkId 0) (-1) "Spa"]) ∧
    (⟨mkId 1, -1, "Spa", mkId 0⟩ : LapRec)
        ∈ (run emptyDB [Op.createDriver "A", Op.createLap (mkId 0) (-1) "Spa"]).laps ∧
    ((run emptyDB [Op.createDriver "A", Op.createLap (mkId 0) (-1) "Spa"]).laps.all
        (fun l => decide (0 < l.lap_time))) = false :=
  ⟨reachable_run0 _, by decide, by decide⟩

theorem stepOp_laps_pos {db : DB} {op : Op} (hop : opPosTime op = true)
    (hdb : ∀ l ∈ db.laps, 0 < l.lap_time) :
    ∀ l ∈ (stepOp db op).laps, 0 < l.lap_time := by
  cases op with
  | createDriver nm => exact hdb
  | listDrivers => exact hdb
  | getDriver did => exact hdb
  | listLaps did => exact hdb
  | getLap did lid => exact hdb
  | updateDriver did nm2 =>
    cases hf : findDriver db did with
    | none =>
      have he : (stepOp db (Op.updateDriver did nm2)).laps = db.laps := by
        show (update_driver db did nm2).2.laps = db.laps
        rw [update_driver_eq_none hf]
      rw [he]
      exact hdb
    | some d =>
      have he : (stepOp db (Op.updateDriver did nm2)).laps = db.laps := by
        show (update_driver db did nm2).2.laps = db.laps
        rw [update_driver_eq_some hf]
      rw [he]
      exact hdb
  | deleteDriver did =>
    cases hf : findDriver db did with
    | none =>
      have he : (stepOp db (Op.deleteDriver did)).laps = db.laps := by
        show (delete_driver db did).2.laps = db.laps
        rw [delete_driver_eq_none hf]
      rw [he]
      exact hdb
    | some d =>
      have he : (stepOp db (Op.deleteDriver did)).laps
          = db.laps.filter (fun l => !(l.driver_id == d.id)) := by
        show (delete_driver db did).2.laps = _
        rw [delete_driver_eq_some hf]
      rw [he]
      intro l hl
      exact hdb l (List.mem_filter.mp hl).1
  | createLap did t2 tr2 =>
    have ht : 0 < t2 := of_decide_eq_true hop
    cases hf : findDriver db did with
    | none =>
      have he : (stepOp db (Op.createLap did t2 tr2)).laps = db.laps := by
        show (create_lap db did t2 tr2).2.laps = db.laps
        rw [create_lap_eq_none hf]
      rw [he]
      exact hdb
    | some d =>
      have he : (stepOp db (Op.createLap did t2 tr2)).laps
          = db.laps ++ [⟨mkId db.nextId, t2, tr2, did⟩] := by
        show (create_lap db did t2 tr2).2.laps = _
        rw [create_lap_eq_some hf]
      rw [he]
      intro l hl
      rcases List.mem_append.mp hl with hl | hl
      · exact hdb l hl
      · rcases List.mem_singleton.mp hl with rfl
        exact ht
  | updateLap did lid t2 tr2 =>
    have ht : 0 < t2 := of_decide_eq_true hop
    cases hf : findLap db lid did with
    | none =>
      have he : (stepOp db (Op.updateLap did lid t2 tr2)).laps = db.laps := by
        show (update_lap db did lid t2 tr2).2.laps = db.laps
        rw [update_lap_eq_none hf]
      rw [he]
      exact hdb
    | some l0 =>
      have he : (stepOp db (Op.updateLap did lid t2 tr2)).laps
          = updateLapIn db.laps lid did t2 tr2 := by
        show (update_lap db did lid t2 tr2).2.laps = _
        rw [update_lap_eq_some hf]
      rw [he]
      intro l hl
      rcases updateLapIn_mem_time hl with hl | hl
      · exact hdb l hl
      · rw [hl]
        exact ht
  | deleteLap did lid =>
    cases hf : findLap db lid did with
    | none =>
      have he : (stepOp db (Op.deleteLap did lid)).laps = db.laps := by
        show (delete_lap db did lid).2.laps = db.laps
        rw [delete_lap_eq_none hf]
      rw [he]
      exact hdb
    | some l0 =>
      have he : (stepOp db (Op.deleteLap did lid)).laps
          = eraseLapIn db.laps lid did := by
        show (delete_lap db did lid).2.laps = _
        rw [delete_lap_eq_some hf]
      rw [he]
      intro l hl
      exact hdb l ((eraseLapIn_sublist db.laps lid did).subset hl)

/-- C4 as amended: the service applies no validation to `lap_time` and
stores exactly the supplied value, so positivity of stored laps is the
caller's doing, not the system's: if every `create_lap`/`update_lap`
request on a trace from the empty store supplies a positive `lap_time`,
then every stored lap's `lap_time` is positive in the resulting state. -/
theorem claim4_lap_time_passthrough (ops : List Op)
    (h : ∀ op ∈ ops, opPosTime op = true) :
    ∀ l ∈ (run emptyDB ops).laps, 0 < l.lap_time := by
  have key : ∀ ops2 : List Op, ∀ db : DB, (∀ op ∈ ops2, opPosTime op = true) →
      (∀ l ∈ db.laps, 0 < l.lap_time) →
      ∀ l ∈ (run db ops2).laps, 0 < l.lap_time := by
    intro ops2
    induction ops2 with
    | nil => intro db _ hdb; exact hdb
    | cons op ops2 ih =>
      intro db hops hdb
      exact ih (stepOp db op)
        (fun op2 h2 => hops op2 (List.mem_cons_of_mem _ h2))
        (stepOp_laps_pos (hops op (List.mem_cons_self _ _)) hdb)
  refine key ops emptyDB h ?_
  intro l hl
  simp [emptyDB] at hl

/-- Witness for the amended C4: a trace whose only lap was created with a
positive time yields only positive stored times. -/
theorem claim4_lap_time_passthrough_witness :
    0 < (LapRec.mk (mkId 1) 5 "Spa" (mkId 0)).lap_time :=
  claim4_lap_time_passthrough [Op.createDriver "A", Op.createLap (mkId 0) 5 "Spa"]
    (by decide) ⟨mkId 1, 5, "Spa", mkId 0⟩ (by decide)
